import Mathlib

/-!
Verification of the Field Room sync service
(`clawdbot-connector/sync-service.js`, the current variant of the file).

The server state (client registry, chat history, notes list, active-meetings
map) is embedded as a Lean structure; each WebSocket message handler becomes a
pure transition `ServerState → ServerState × List Eff`, where `Eff` records the
outbound sends and persistence calls the handler performs, in order.  JS `Map`s
are modelled as association lists in insertion order (JS `Map` iteration
order).  JS numbers that only matter for presence/zero tests are modelled as
`Option ℚ` (`none` = absent/undefined); NaN is not modelled.  Random
`generateId()` values and `Date.now()` timestamps are passed in as explicit
parameters.  Decimal `toFixed` formatting of coordinates is abstracted to exact
rational rendering (no claim inspects these strings).  The `timestamp` field
that the server attaches to each outbound broadcast envelope is omitted from
the outbound payloads (no claim inspects it); timestamps inside stored chat
records are kept.
-/

set_option linter.unusedVariables false
set_option maxHeartbeats 1600000

namespace FieldRoom

/-- A user location payload `{lat, lng, name?}`. -/
structure Loc where
  lat : ℚ
  lng : ℚ
  name : Option String
deriving DecidableEq, Repr

/-- One registered session (the value stored in the `clients` map).  The raw
transport handle and the free-form `metadata` object are not modelled: sends
are recorded as intent-level effects, and no handler reads `metadata`. -/
structure Client where
  userId : String
  userType : String
  location : Option Loc
  status : String
  joinedAt : Nat
  lastSeen : Nat
deriving DecidableEq, Repr

/-- A chat-history record: `{type, id, from, text, inReplyTo?, timestamp}`.
The JS field `from` is named `sender` here (`from` is reserved in Lean). -/
structure ChatRec where
  kind : String
  id : String
  sender : String
  text : String
  inReplyTo : Option String
  timestamp : Nat
deriving DecidableEq, Repr

/-- A note `{id, lat, lng, locationName?, text, author, timestamp, meetingFile?}`. -/
structure Note where
  id : String
  lat : Option ℚ
  lng : Option ℚ
  locationName : Option String
  text : String
  author : String
  timestamp : Nat
  meetingFile : Option String
deriving DecidableEq, Repr

/-- One active meeting's state. -/
structure MeetingState where
  id : String
  lat : Option ℚ
  lng : Option ℚ
  locationName : String
  startedBy : String
  startedAt : String
  participants : List String
  transcript : List String
deriving DecidableEq, Repr

/-- A presence entry as built by `broadcastPresence`. -/
structure PresenceEntry where
  userId : String
  userType : String
  location : Option Loc
  status : String
  lastSeen : Nat
deriving DecidableEq, Repr

/-- A drawing record as assembled by `handleDrawing`; the free-form contents of
`msg.drawing` are carried opaquely in `payload`. -/
structure Drawing where
  id : String
  createdBy : String
  createdAt : Nat
  updatedAt : Nat
  payload : String
deriving DecidableEq, Repr

/-- Outbound message payloads (the claim-relevant fields of each `type`d JSON
message the server sends). -/
inductive OutMsg where
  | chatOut (msgRec : ChatRec)
  | aiResponse (msgRec : ChatRec)
  | typing (userId : String)
  | errorText (text : String)
  | presence (users : List PresenceEntry)
  | moveOut (userId : String) (location : Option Loc)
  | noteAdded (n : Note)
  | noteDeleted (noteId : String)
  | meetingStarted (id : String) (lat lng : Option ℚ) (locationName startedBy : String)
      (participants : List String)
  | meetingJoined (meetingId userId : String) (participants : List String)
  | meetingEnded (meetingId fileName locationName endedBy : String) (n : Note)
  | drawingOut (d : Drawing)
deriving DecidableEq, Repr

/-- One observable effect of a handler, in program order.  `broadcast` is
`broadcast(message, excludeClientId)`; `sendToUser` fans out to every session
whose asserted user id matches; `callUpstream` marks the single HTTP request to
the completion endpoint. -/
inductive Eff where
  | broadcast (msg : OutMsg) (exclude : Option String)
  | sendToUser (userId : String) (msg : OutMsg)
  | logChat (msgRec : ChatRec)
  | saveNotes (notes : List Note)
  | saveTranscript (fileName : String) (content : String)
  | saveDrawing (d : Drawing)
  | callUpstream
deriving DecidableEq, Repr

/-- The shared mutable server state. -/
structure ServerState where
  clients : List (String × Client)
  chatHistory : List ChatRec
  notes : List Note
  activeMeetings : List (String × MeetingState)
deriving DecidableEq, Repr

/-- The configuration fields the modelled handlers read. -/
structure Config where
  aiUserId : String
  logChat : Bool
deriving DecidableEq, Repr

/-- Default configuration (`AI_USER_ID = 'pauline'`, `LOG_CHAT = true`). -/
def defaultCfg : Config := { aiUserId := "pauline", logChat := true }

/-- `MAX_HISTORY` from the source. -/
def MAX_HISTORY : Nat := 100

/-- `Map.get`: first value stored under the key, in insertion order. -/
def mapGet (k : String) : List (String × α) → Option α
  | [] => none
  | p :: rest => if p.1 == k then some p.2 else mapGet k rest

/-- `Map.set`: replace in place if the key is present, else append. -/
def mapSet (k : String) (v : α) (l : List (String × α)) : List (String × α) :=
  if l.any (fun p => p.1 == k) then l.map (fun p => if p.1 == k then (k, v) else p)
  else l ++ [(k, v)]

/-- `Map.delete`. -/
def mapDelete (k : String) (l : List (String × α)) : List (String × α) :=
  l.filter (fun p => p.1 != k)

/-- JS truthiness of an optional number: `undefined`, `null` and `0` are falsy. -/
def jsTruthyNum : Option ℚ → Bool
  | none => false
  | some q => q != 0

/-- JS `x || d` for an optional string (`undefined` and `""` are falsy). -/
def jsStrOr (o : Option String) (d : String) : String :=
  match o with
  | some s => if s = "" then d else s
  | none => d

/-- JS `x || null` for an optional string. -/
def jsOrNull (o : Option String) : Option String :=
  match o with
  | some s => if s = "" then none else some s
  | none => none

/-- JS `x || d` for an optional number used as a timestamp. -/
def jsNatOr (o : Option Nat) (d : Nat) : Nat :=
  match o with
  | some n => if n = 0 then d else n
  | none => d

/-! ### Mention detection (`isMentioned`)

The source tests two regexes, case-insensitively: `` `@${AI_USER_ID}\b` `` and
`` `\b${AI_USER_ID}\b` ``.  We embed the regex engine's scan over the text:
JS `\b` holds at a position iff exactly one of the two adjacent characters is a
word character (`[A-Za-z0-9_]`); the `i` flag is modelled by lowercasing both
pattern and text (the default id `pauline` and the claim's examples are ASCII).
-/

/-- JS `\w`: ASCII letters, digits, underscore. -/
def isWordChar (c : Char) : Bool := c.isAlphanum || c == '_'

/-- Whether an optional adjacent character is a word character (`none` = string
edge, which is not a word character). -/
def wordOpt : Option Char → Bool
  | none => false
  | some c => isWordChar c

/-- JS `\b` between adjacent characters `l` and `r`. -/
def isBoundary (l r : Option Char) : Bool := wordOpt l != wordOpt r

/-- `noWordOpt o`: the position beside `o` is the string edge or a non-word
character. -/
def noWordOpt (o : Option Char) : Bool := !(wordOpt o)

/-- The character immediately before the position that follows `pat`, given
the character `prev` before `pat` itself. -/
def lastCharOf (prev : Option Char) : List Char → Option Char
  | [] => prev
  | c :: rest => lastCharOf (some c) rest

/-- Match the literal pattern `pat` at the head of `s` (the character before
`s` being `prev`), then require a `\b` after the match. -/
def matchEndsBounded (prev : Option Char) (pat s : List Char) : Bool :=
  pat.isPrefixOf s && isBoundary (lastCharOf prev pat) (s.drop pat.length).head?

/-- The regex engine's left-to-right scan for
`@<id>\b` or `\b<id>\b`, carrying the previous character. -/
def mentionScan (aiId : List Char) : Option Char → List Char → Bool
  | _, [] => false
  | prev, c :: rest =>
    matchEndsBounded prev ('@' :: aiId) (c :: rest) ||
    (isBoundary prev (some c) && matchEndsBounded prev aiId (c :: rest)) ||
    mentionScan aiId (some c) rest

/-- Lowercased character list of a string (models the regex `i` flag for
ASCII). -/
def lowerL (s : String) : List Char := s.toList.map Char.toLower

/-- `isMentioned(text)` from the source, parametrised by the configuration. -/
def isMentioned (cfg : Config) (text : String) : Bool :=
  mentionScan (lowerL cfg.aiUserId) none (lowerL text)

/-- Spec-side reading of the mention rule, following the claim's words: the
(lowercased) text contains `@<id>` as a token followed by a word boundary, or
the bare `<id>` as a word-bounded token (non-word or edge on both sides).  The
`@` variant needs no left-side condition since the regex `@<id>\b` asserts a
boundary only after the id. -/
def mentionClaimSpec (aiId : List Char) (s : List Char) : Prop :=
  (∃ pre suf, s = pre ++ ('@' :: aiId) ++ suf ∧ noWordOpt suf.head? = true) ∨
  (∃ pre suf, s = pre ++ aiId ++ suf ∧ noWordOpt pre.getLast? = true ∧
    noWordOpt suf.head? = true)

/-! ### Upstream completion call (`callOpenClaw`) -/

/-- The possible outcomes of the HTTP request to the completion endpoint, as a
transition parameter: a response with optional first-choice content, a
non-success HTTP status with its body, or a network failure. -/
inductive UpstreamResult where
  | ok (content : Option String)
  | httpError (status : Nat) (body : String)
  | unreachable (message : String)
deriving DecidableEq, Repr

/-- `result.choices?.[0]?.message?.content || 'No response'` (a missing or
empty — falsy — content is replaced by the literal fallback). -/
def extractContent (c : Option String) : String :=
  match c with
  | some s => if s = "" then "No response" else s
  | none => "No response"

/-- `callOpenClaw`: throws on non-success status (with the status and body in
the message) or network failure, else returns the extracted text. -/
def callOpenClaw : UpstreamResult → Except String String
  | .ok c => .ok (extractContent c)
  | .httpError status body =>
      .error ("OpenClaw API error " ++ toString status ++ ": " ++ body)
  | .unreachable m => .error m

/-! ### History and meeting bookkeeping -/

/-- `chatHistory.push(msg); if (chatHistory.length > MAX_HISTORY) chatHistory.shift()`. -/
def pushHistory (maxHistory : Nat) (h : List ChatRec) (m : ChatRec) : List ChatRec :=
  let h2 := h ++ [m]
  if maxHistory < h2.length then h2.tail else h2

/-- `recordMeetingChat(userId, text)`: append `userId: text` to the transcript
of every active meeting whose participant set contains `userId`. -/
def recordMeetingChat (userId text : String) (ms : List (String × MeetingState)) :
    List (String × MeetingState) :=
  ms.map fun p =>
    if p.2.participants.contains userId then
      (p.1, { p.2 with transcript := p.2.transcript ++ [userId ++ ": " ++ text] })
    else p

/-- `leaveAllMeetings(userId)`: for every meeting containing `userId`, remove
them from the participant set and append a disconnected line.  `participants`
is a JS `Set` (no duplicates), so `Set.delete` is a filter. -/
def leaveAllMeetings (userId : String) (ms : List (String × MeetingState)) :
    List (String × MeetingState) :=
  ms.map fun p =>
    if p.2.participants.contains userId then
      (p.1, { p.2 with
        participants := p.2.participants.filter (fun x => x != userId),
        transcript := p.2.transcript ++ ["[" ++ userId ++ " disconnected]"] })
    else p

/-! ### Presence -/

/-- The presence entry derived from one registered session. -/
def presenceEntryOf (c : Client) : PresenceEntry :=
  { userId := c.userId, userType := c.userType, location := c.location,
    status := c.status, lastSeen := c.lastSeen }

/-- The synthetic always-online AI presence entry. -/
def syntheticAI (cfg : Config) (now : Nat) : PresenceEntry :=
  { userId := cfg.aiUserId, userType := "ai", location := none,
    status := "online", lastSeen := now }

/-- The `users` list of a presence broadcast: one entry per session, plus the
synthetic AI entry when no session has claimed the AI user id. -/
def presenceUsers (cfg : Config) (clients : List (String × Client)) (now : Nat) :
    List PresenceEntry :=
  if (clients.map fun p => presenceEntryOf p.2).any (fun e => e.userId == cfg.aiUserId) then
    clients.map fun p => presenceEntryOf p.2
  else (clients.map fun p => presenceEntryOf p.2) ++ [syntheticAI cfg now]

/-- `broadcastPresence()` as an effect. -/
def presenceEff (cfg : Config) (clients : List (String × Client)) (now : Nat) : Eff :=
  .broadcast (.presence (presenceUsers cfg clients now)) none

/-! ### AI request pipeline (`processAIRequest`)

`buildContext` is a pure read of the shared state handed to the upstream call;
since the upstream outcome is already a transition parameter
(`UpstreamResult`), the context value itself does not appear in the model. -/

/-- `processAIRequest(fromUser, text, replyToId)`, parametrised by the upstream
outcome, the generated response id and the current time. -/
def processAIRequest (cfg : Config) (st : ServerState) (fromUser text : String)
    (replyTo : Option String) (upstream : UpstreamResult) (freshId : String)
    (now : Nat) : ServerState × List Eff :=
  let typingEff : Eff := .broadcast (.typing cfg.aiUserId) none
  match callOpenClaw upstream with
  | .error e =>
      (st, [typingEff, .callUpstream,
        .broadcast (.errorText ("Failed to get AI response: " ++ e)) none])
  | .ok response =>
      let respRec : ChatRec :=
        { kind := "ai_response", id := freshId, sender := cfg.aiUserId,
          text := response, inReplyTo := jsOrNull replyTo, timestamp := now }
      let st2 := { st with
        chatHistory := pushHistory MAX_HISTORY st.chatHistory respRec,
        activeMeetings := recordMeetingChat cfg.aiUserId response st.activeMeetings }
      (st2, [typingEff, .callUpstream, .broadcast (.aiResponse respRec) none] ++
        (if cfg.logChat then [.logChat respRec] else []))

/-! ### Chat and invoke -/

/-- `handleChat`: drops the message if the connection is unregistered;
otherwise stores, logs, broadcasts, records into the sender's meetings, and on
an AI mention runs the AI pipeline.  `id1` is the generated chat-record id,
`id2` the generated AI-response id. -/
def handleChat (cfg : Config) (st : ServerState) (clientId text : String)
    (id1 id2 : String) (upstream : UpstreamResult) (now : Nat) :
    ServerState × List Eff :=
  match mapGet clientId st.clients with
  | none => (st, [])
  | some client =>
      let chatMsg : ChatRec :=
        { kind := "chat", id := id1, sender := client.userId, text := text,
          inReplyTo := none, timestamp := now }
      let st1 := { st with chatHistory := pushHistory MAX_HISTORY st.chatHistory chatMsg }
      let effs1 := (if cfg.logChat then [Eff.logChat chatMsg] else []) ++
        [Eff.broadcast (.chatOut chatMsg) none]
      let st2 := { st1 with
        activeMeetings := recordMeetingChat client.userId text st1.activeMeetings }
      if isMentioned cfg text then
        let r := processAIRequest cfg st2 client.userId text (some id1) upstream id2 now
        (r.1, effs1 ++ r.2)
      else (st2, effs1)

/-- `handleInvoke`: unregistered connections are dropped; otherwise the command
goes straight to the AI pipeline with the client-supplied `msg.id`. -/
def handleInvoke (cfg : Config) (st : ServerState) (clientId command : String)
    (msgId : Option String) (upstream : UpstreamResult) (freshId : String)
    (now : Nat) : ServerState × List Eff :=
  match mapGet clientId st.clients with
  | none => (st, [])
  | some client => processAIRequest cfg st client.userId command msgId upstream freshId now

/-! ### Notes -/

/-- Inbound `note` message payload. -/
structure NoteMsg where
  action : String
  lat : Option ℚ := none
  lng : Option ℚ := none
  locationName : Option String := none
  text : String := ""
  noteId : Option String := none
deriving DecidableEq, Repr

/-- JS `Array.prototype.findIndex`: index of the first element satisfying the
predicate. -/
def findIndex (p : Note → Bool) : List Note → Option Nat
  | [] => none
  | n :: rest => if p n then some 0 else (findIndex p rest).map (· + 1)

/-- The `action === 'add'` branch of `handleNote`. -/
def addNote (st : ServerState) (client : Client) (m : NoteMsg) (freshId : String)
    (now : Nat) : ServerState × List Eff :=
  let note : Note :=
    { id := freshId, lat := m.lat, lng := m.lng,
      locationName := jsOrNull m.locationName, text := m.text,
      author := client.userId, timestamp := now, meetingFile := none }
  let st2 := { st with notes := st.notes ++ [note] }
  (st2, [.saveNotes st2.notes, .broadcast (.noteAdded note) none])

/-- The `action === 'delete' && msg.noteId` branch of `handleNote`: remove the
first note matching both the id and the requesting user as author, silently
no-opping otherwise (also when `msg.noteId` is falsy). -/
def deleteNote (st : ServerState) (client : Client) (noteId : Option String) :
    ServerState × List Eff :=
  match jsOrNull noteId with
  | none => (st, [])
  | some nid =>
      match findIndex (fun n => n.id == nid && n.author == client.userId) st.notes with
      | none => (st, [])
      | some i =>
          let notes2 := st.notes.eraseIdx i
          ({ st with notes := notes2 },
            [.saveNotes notes2, .broadcast (.noteDeleted nid) none])

/-- `handleNote`. -/
def handleNote (cfg : Config) (st : ServerState) (clientId : String) (m : NoteMsg)
    (freshId : String) (now : Nat) : ServerState × List Eff :=
  match mapGet clientId st.clients with
  | none => (st, [])
  | some client =>
      if m.action = "add" then addNote st client m freshId now
      else if m.action = "delete" then deleteNote st client m.noteId
      else (st, [])

/-! ### Meetings -/

/-- Inbound `meeting` message payload. -/
structure MeetingMsg where
  action : String
  lat : Option ℚ := none
  lng : Option ℚ := none
  locationName : Option String := none
  meetingId : Option String := none
deriving DecidableEq, Repr

/-- Date/time strings and the transcript artifact name, preformatted from the
wall clock (`toLocaleDateString` / `toLocaleTimeString` / `toISOString` are
environment inputs here). -/
structure DateInfo where
  dateStr : String
  timeStr : String
  startedAtIso : String
  fileName : String
deriving DecidableEq, Repr

/-- Default `locationName` rendering of a coordinate pair (source:
`toFixed(4)`; decimal formatting abstracted to exact rational rendering). -/
def coordLabel4 (lat lng : Option ℚ) : String :=
  toString (lat.getD 0) ++ ", " ++ toString (lng.getD 0)

/-- Transcript-header rendering of a coordinate pair (source: `toFixed(5)`). -/
def coordLabel5 (lat lng : Option ℚ) : String :=
  toString (lat.getD 0) ++ ", " ++ toString (lng.getD 0)

/-- The meeting record `startMeeting` constructs on success. -/
def newMeeting (client : Client) (m : MeetingMsg) (freshId : String) (d : DateInfo) :
    MeetingState :=
  { id := freshId, lat := m.lat, lng := m.lng,
    locationName := jsStrOr m.locationName (coordLabel4 m.lat m.lng),
    startedBy := client.userId, startedAt := d.startedAtIso,
    participants := [client.userId],
    transcript :=
      ["MEETING TRANSCRIPT", "==================",
       "Location: " ++ jsStrOr m.locationName (coordLabel5 m.lat m.lng),
       "Date: " ++ d.dateStr, "Time: " ++ d.timeStr,
       "Started by: " ++ client.userId, "", "--- Meeting Started ---", ""] }

/-- `startMeeting(client, msg)`. -/
def startMeeting (cfg : Config) (st : ServerState) (client : Client) (m : MeetingMsg)
    (freshId : String) (d : DateInfo) : ServerState × List Eff :=
  if !(jsTruthyNum m.lat && jsTruthyNum m.lng) then
    (st, [.sendToUser client.userId
      (.errorText "Select a location on the map before starting a meeting.")])
  else
    let ms2 := mapSet freshId (newMeeting client m freshId d) st.activeMeetings
    ({ st with activeMeetings := ms2 },
      [.broadcast (.meetingStarted freshId m.lat m.lng
        (newMeeting client m freshId d).locationName client.userId
        [client.userId]) none])

/-- JS `id.startsWith(prefixStr)`, modelled over character lists (Lean's own
`String.startsWith` is irreducible for the kernel). -/
def strStartsWith (s pre : String) : Bool := pre.toList.isPrefixOf s.toList

/-- Meeting-id resolution: exact `Map.get` first, then the first active meeting
whose id has the supplied string as a prefix. -/
def resolveMeeting (ms : List (String × MeetingState)) (mid : String) :
    Option (String × MeetingState) :=
  match mapGet mid ms with
  | some m => some (mid, m)
  | none => ms.find? (fun p => strStartsWith p.1 mid)

/-- The body of `joinMeeting` once the meeting id has been resolved to the
entry `(rid, m)`. -/
def joinResolved (st : ServerState) (client : Client) (rid : String)
    (m : MeetingState) : ServerState × List Eff :=
  if m.participants.contains client.userId then
    (st, [.sendToUser client.userId (.errorText "You are already in this meeting.")])
  else
    let m2 := { m with
      participants := m.participants ++ [client.userId],
      transcript := m.transcript ++
        ["[" ++ client.userId ++ " joined the meeting]", ""] }
    ({ st with activeMeetings := mapSet rid m2 st.activeMeetings },
      [.broadcast (.meetingJoined rid client.userId m2.participants) none])

/-- `joinMeeting(client, meetingId)`. -/
def joinMeeting (st : ServerState) (client : Client) (mid : String) :
    ServerState × List Eff :=
  match resolveMeeting st.activeMeetings mid with
  | none => (st, [.sendToUser client.userId (.errorText "Meeting not found.")])
  | some (rid, m) => joinResolved st client rid m

/-- `endMeeting(client, meetingId)`. -/
def endMeeting (st : ServerState) (client : Client) (mid : String)
    (freshId : String) (d : DateInfo) (now : Nat) : ServerState × List Eff :=
  match resolveMeeting st.activeMeetings mid with
  | none => (st, [.sendToUser client.userId (.errorText "Meeting not found.")])
  | some (rid, m) =>
      if !(m.participants.contains client.userId) then
        (st, [.sendToUser client.userId (.errorText "You are not in this meeting.")])
      else
        let tr := m.transcript ++
          ["", "--- Meeting Ended at " ++ d.timeStr ++ " ---",
           "Participants: " ++ String.intercalate ", " m.participants]
        let note : Note :=
          { id := freshId, lat := m.lat, lng := m.lng,
            locationName := some m.locationName,
            text := "📋 Meeting transcript: " ++ d.fileName ++ " (" ++
              String.intercalate ", " m.participants ++ ")",
            author := "system", timestamp := now, meetingFile := some d.fileName }
        let st2 := { st with
          notes := st.notes ++ [note],
          activeMeetings := mapDelete rid st.activeMeetings }
        (st2, [.saveTranscript d.fileName (String.intercalate "\n" tr),
          .saveNotes st2.notes,
          .broadcast (.meetingEnded rid d.fileName m.locationName client.userId note) none])

/-- `handleMeeting`: unregistered connections are dropped before the action
dispatch.  A missing `msg.meetingId` is coerced to the string `"undefined"`,
matching JS `String.prototype.startsWith(undefined)`. -/
def handleMeeting (cfg : Config) (st : ServerState) (clientId : String)
    (m : MeetingMsg) (freshId : String) (d : DateInfo) (now : Nat) :
    ServerState × List Eff :=
  match mapGet clientId st.clients with
  | none => (st, [])
  | some client =>
      if m.action = "start" then startMeeting cfg st client m freshId d
      else if m.action = "join" then joinMeeting st client (m.meetingId.getD "undefined")
      else if m.action = "end" then
        endMeeting st client (m.meetingId.getD "undefined") freshId d now
      else (st, [])

/-! ### Move, drawing, disconnect -/

/-- `handleMove`. -/
def handleMove (cfg : Config) (st : ServerState) (clientId : String)
    (loc : Option Loc) (now : Nat) : ServerState × List Eff :=
  match mapGet clientId st.clients with
  | none => (st, [])
  | some client =>
      let c2 := { client with location := loc, lastSeen := now }
      let st2 := { st with clients := mapSet clientId c2 st.clients }
      (st2, [.broadcast (.moveOut client.userId loc) (some clientId),
        presenceEff cfg st2.clients now])

/-- Inbound `drawing` message payload (`id`/`createdAt` optional, contents
opaque). -/
structure DrawingMsg where
  id : Option String := none
  createdAt : Option Nat := none
  payload : String := ""
deriving DecidableEq, Repr

/-- `handleDrawing`. -/
def handleDrawing (cfg : Config) (st : ServerState) (clientId : String)
    (dm : DrawingMsg) (freshId : String) (now : Nat) : ServerState × List Eff :=
  match mapGet clientId st.clients with
  | none => (st, [])
  | some client =>
      let d : Drawing :=
        { id := jsStrOr dm.id freshId, createdBy := client.userId,
          createdAt := jsNatOr dm.createdAt now, updatedAt := now,
          payload := dm.payload }
      (st, [.saveDrawing d, .broadcast (.drawingOut d) (some clientId)])

/-- The `ws.on('close')` handler: for a registered session, leave all meetings,
delete the session, and rebroadcast presence (computed on the updated
registry); unregistered connections do nothing. -/
def handleClose (cfg : Config) (st : ServerState) (clientId : String) (now : Nat) :
    ServerState × List Eff :=
  match mapGet clientId st.clients with
  | none => (st, [])
  | some client =>
      let st2 := { st with
        activeMeetings := leaveAllMeetings client.userId st.activeMeetings,
        clients := mapDelete clientId st.clients }
      (st2, [presenceEff cfg st2.clients now])

/-! ### Dispatch -/

/-- The six inbound message types whose handlers guard on registration (C10).
`auth` (which registers), `state_update` and `ping` (which have no registry
guard in the source) and unknown types are outside this dispatcher. -/
inductive InMsg where
  | chat (text : String)
  | invoke (command : String) (id : Option String)
  | note (m : NoteMsg)
  | meeting (m : MeetingMsg)
  | move (location : Option Loc)
  | drawing (d : DrawingMsg)
deriving DecidableEq, Repr

/-- Per-dispatch environment inputs: the wall clock, up to two generated ids,
the upstream outcome, and preformatted date strings. -/
structure Env where
  now : Nat
  id1 : String
  id2 : String
  upstream : UpstreamResult
  dateInfo : DateInfo
deriving DecidableEq, Repr

/-- `handleMessage` restricted to the six guarded message types. -/
def step (cfg : Config) (env : Env) (st : ServerState) (clientId : String) :
    InMsg → ServerState × List Eff
  | .chat text => handleChat cfg st clientId text env.id1 env.id2 env.upstream env.now
  | .invoke command msgId =>
      handleInvoke cfg st clientId command msgId env.upstream env.id1 env.now
  | .note m => handleNote cfg st clientId m env.id1 env.now
  | .meeting m => handleMeeting cfg st clientId m env.id1 env.dateInfo env.now
  | .move loc => handleMove cfg st clientId loc env.now
  | .drawing d => handleDrawing cfg st clientId d env.id1 env.now

/-! ### Lemmas about the mention scan -/

theorem isPrefixOf_iff_exists : ∀ (p s : List Char), p.isPrefixOf s = true ↔ ∃ t, s = p ++ t
  | [], s => by simp [List.isPrefixOf]
  | a :: as, [] => by simp [List.isPrefixOf]
  | a :: as, b :: bs => by
      simp only [List.isPrefixOf, Bool.and_eq_true, beq_iff_eq]
      constructor
      · rintro ⟨rfl, h⟩
        obtain ⟨t, rfl⟩ := (isPrefixOf_iff_exists as bs).mp h
        exact ⟨t, rfl⟩
      · rintro ⟨t, ht⟩
        rw [List.cons_append] at ht
        injection ht with h1 h2
        exact ⟨h1.symm, (isPrefixOf_iff_exists as bs).mpr ⟨t, h2⟩⟩

theorem dropLenAppend (p t : List Char) : (p ++ t).drop p.length = t := by
  induction p with
  | nil => simp
  | cons a as ih => simp [ih]

theorem isBoundary_word_left (c : Char) (hw : isWordChar c = true) (r : Option Char) :
    isBoundary (some c) r = noWordOpt r := by
  simp only [isBoundary, noWordOpt, wordOpt, hw]
  cases h : (match r with | none => false | some c => isWordChar c) <;> rfl

theorem isBoundary_word_right (c : Char) (hw : isWordChar c = true) (l : Option Char) :
    isBoundary l (some c) = noWordOpt l := by
  simp only [isBoundary, noWordOpt, wordOpt, hw]
  cases h : (match l with | none => false | some c => isWordChar c) <;> rfl

theorem matchEndsBounded_iff (pat s : List Char) (prev : Option Char) (cL : Char)
    (hlast : lastCharOf prev pat = some cL) (hw : isWordChar cL = true) :
    matchEndsBounded prev pat s = true ↔
      ∃ t, s = pat ++ t ∧ noWordOpt t.head? = true := by
  unfold matchEndsBounded
  rw [hlast, isBoundary_word_left cL hw, Bool.and_eq_true]
  constructor
  · rintro ⟨h1, h2⟩
    obtain ⟨t, rfl⟩ := (isPrefixOf_iff_exists pat s).mp h1
    refine ⟨t, rfl, ?_⟩
    rwa [dropLenAppend] at h2
  · rintro ⟨t, rfl, hp⟩
    refine ⟨(isPrefixOf_iff_exists pat _).mpr ⟨t, rfl⟩, ?_⟩
    rwa [dropLenAppend]

theorem split_cons₁ (X : List Char) (c : Char) (rest : List Char) :
    (∃ pre suf, c :: rest = pre ++ X ++ suf ∧ noWordOpt suf.head? = true) ↔
      ((∃ suf, c :: rest = X ++ suf ∧ noWordOpt suf.head? = true) ∨
       (∃ pre suf, rest = pre ++ X ++ suf ∧ noWordOpt suf.head? = true)) := by
  constructor
  · rintro ⟨pre, suf, heq, hp⟩
    cases pre with
    | nil => exact Or.inl ⟨suf, by simpa using heq, hp⟩
    | cons d pre2 =>
        rw [List.cons_append] at heq
        injection heq with h1 h2
        exact Or.inr ⟨pre2, suf, h2, hp⟩
  · rintro (⟨suf, heq, hp⟩ | ⟨pre2, suf, heq, hp⟩)
    · exact ⟨[], suf, by simpa using heq, hp⟩
    · exact ⟨c :: pre2, suf, by simp [heq], hp⟩

theorem split_cons₂ (X : List Char) (prev : Option Char) (c : Char) (rest : List Char) :
    (∃ pre suf, c :: rest = pre ++ X ++ suf ∧
        noWordOpt (lastCharOf prev pre) = true ∧ noWordOpt suf.head? = true) ↔
      ((∃ suf, c :: rest = X ++ suf ∧
          noWordOpt prev = true ∧ noWordOpt suf.head? = true) ∨
       (∃ pre suf, rest = pre ++ X ++ suf ∧
          noWordOpt (lastCharOf (some c) pre) = true ∧ noWordOpt suf.head? = true)) := by
  constructor
  · rintro ⟨pre, suf, heq, hq, hp⟩
    cases pre with
    | nil => exact Or.inl ⟨suf, by simpa using heq, hq, hp⟩
    | cons d pre2 =>
        rw [List.cons_append] at heq
        injection heq with h1 h2
        subst h1
        exact Or.inr ⟨pre2, suf, h2, hq, hp⟩
  · rintro (⟨suf, heq, hq, hp⟩ | ⟨pre2, suf, heq, hq, hp⟩)
    · exact ⟨[], suf, by simpa using heq, hq, hp⟩
    · exact ⟨c :: pre2, suf, by simp [heq], hq, hp⟩

theorem middle_iff (aiId : List Char) (c0 : Char) (tl : List Char)
    (hid : aiId = c0 :: tl) (hw0 : isWordChar c0 = true)
    (prev : Option Char) (c : Char) (rest : List Char) :
    (isBoundary prev (some c) = true ∧
      ∃ t, c :: rest = aiId ++ t ∧ noWordOpt t.head? = true) ↔
    (∃ t, c :: rest = aiId ++ t ∧ noWordOpt prev = true ∧ noWordOpt t.head? = true) := by
  constructor
  · rintro ⟨hb, t, heq, hp⟩
    have heq2 := heq
    rw [hid, List.cons_append] at heq2
    injection heq2 with h1 h2
    subst h1
    rw [isBoundary_word_right c hw0] at hb
    exact ⟨t, heq, hb, hp⟩
  · rintro ⟨t, heq, hprev, hp⟩
    have heq2 := heq
    rw [hid, List.cons_append] at heq2
    injection heq2 with h1 h2
    subst h1
    rw [isBoundary_word_right c hw0]
    exact ⟨hprev, t, heq, hp⟩

theorem lastCharOf_some (c : Char) : ∀ (pre : List Char),
    lastCharOf (some c) pre = (c :: pre).getLast?
  | [] => by simp [lastCharOf]
  | d :: pre2 => by
      rw [show lastCharOf (some c) (d :: pre2) = lastCharOf (some d) pre2 from rfl,
        lastCharOf_some d pre2, List.getLast?_cons_cons]

theorem lastCharOf_none : ∀ (pre : List Char), lastCharOf none pre = pre.getLast?
  | [] => rfl
  | c :: pre2 => by
      rw [show lastCharOf none (c :: pre2) = lastCharOf (some c) pre2 from rfl,
        lastCharOf_some c pre2]

theorem mentionScan_iff (aiId : List Char) (c0 : Char) (tl : List Char)
    (hid : aiId = c0 :: tl) (hw0 : isWordChar c0 = true) (cL : Char)
    (hlast : ∀ p : Option Char, lastCharOf p aiId = some cL)
    (hwL : isWordChar cL = true) :
    ∀ (s : List Char) (prev : Option Char),
      mentionScan aiId prev s = true ↔
        ((∃ pre suf, s = pre ++ ('@' :: aiId) ++ suf ∧ noWordOpt suf.head? = true) ∨
         (∃ pre suf, s = pre ++ aiId ++ suf ∧
            noWordOpt (lastCharOf prev pre) = true ∧ noWordOpt suf.head? = true))
  | [], prev => by
      constructor
      · intro h
        simp [mentionScan] at h
      · rintro (⟨pre, suf, heq, hp⟩ | ⟨pre, suf, heq, hq, hp⟩)
        · have := congrArg List.length heq
          simp only [List.length_nil, List.length_append, List.length_cons] at this
          omega
        · have := congrArg List.length heq
          rw [hid] at this
          simp only [List.length_nil, List.length_append, List.length_cons] at this
          omega
  | c :: rest, prev => by
      have IH := mentionScan_iff aiId c0 tl hid hw0 cL hlast hwL rest (some c)
      have hlastAt : lastCharOf prev ('@' :: aiId) = some cL := hlast (some '@')
      have hA := matchEndsBounded_iff ('@' :: aiId) (c :: rest) prev cL hlastAt hwL
      have hB := matchEndsBounded_iff aiId (c :: rest) prev cL (hlast prev) hwL
      simp only [mentionScan, Bool.or_eq_true, Bool.and_eq_true]
      rw [hA, hB, IH, split_cons₁ ('@' :: aiId) c rest, split_cons₂ aiId prev c rest,
        middle_iff aiId c0 tl hid hw0 prev c rest]
      constructor
      · rintro ((h | h) | (h | h))
        · exact Or.inl (Or.inl h)
        · exact Or.inr (Or.inl h)
        · exact Or.inl (Or.inr h)
        · exact Or.inr (Or.inr h)
      · rintro ((h | h) | (h | h))
        · exact Or.inl (Or.inl h)
        · exact Or.inr (Or.inl h)
        · exact Or.inl (Or.inr h)
        · exact Or.inr (Or.inr h)

/-! ## Claims -/

/-- C4: `isMentioned(text)` returns true exactly when the text contains
`@<ai_user_id>` as a token followed by a word boundary, or the bare
`<ai_user_id>` as a word-bounded token, matched case-insensitively; in
particular, for the configured AI id `pauline`, the texts "hey @pauline",
"pauline?" and "PAULINE please" all return true, while "paulinex" and
"xpauline" return false. -/
theorem c4_isMentioned_spec :
    (∀ text : String, isMentioned defaultCfg text = true ↔
      mentionClaimSpec (lowerL defaultCfg.aiUserId) (lowerL text)) ∧
    isMentioned defaultCfg "hey @pauline" = true ∧
    isMentioned defaultCfg "pauline?" = true ∧
    isMentioned defaultCfg "PAULINE please" = true ∧
    isMentioned defaultCfg "paulinex" = false ∧
    isMentioned defaultCfg "xpauline" = false := by
  refine ⟨fun text => ?_, by decide, by decide, by decide, by decide, by decide⟩
  have hid : lowerL defaultCfg.aiUserId = 'p' :: ['a', 'u', 'l', 'i', 'n', 'e'] := by decide
  have h := mentionScan_iff (lowerL defaultCfg.aiUserId) 'p' ['a', 'u', 'l', 'i', 'n', 'e']
    hid (by decide) 'e' (fun p => by rw [hid]; rfl) (by decide) (lowerL text) none
  unfold isMentioned mentionClaimSpec
  rw [h]
  simp only [lastCharOf_none]

/-! ### C3: bounded FIFO history -/

theorem pushHistory_le (n : Nat) (h : List ChatRec) (m : ChatRec)
    (hle : h.length ≤ n) : (pushHistory n h m).length ≤ n := by
  unfold pushHistory
  simp only [List.length_append, List.length_cons, List.length_nil]
  split
  · simp only [List.length_tail, List.length_append, List.length_cons, List.length_nil]
    omega
  · simp only [List.length_append, List.length_cons, List.length_nil]
    omega

/-- C3: every chat / AI-response append keeps the history length at or below
the configured capacity (`MAX_HISTORY`, default 100): an append below capacity
only appends; an append at capacity drops exactly the oldest record, keeps the
relative order of the rest, and leaves the length at capacity; and any
sequence of appends starting within the bound stays within the bound. -/
theorem c3_history_bound :
    MAX_HISTORY = 100 ∧
    (∀ (n : Nat) (h : List ChatRec) (m : ChatRec), h.length < n →
      pushHistory n h m = h ++ [m]) ∧
    (∀ (n : Nat) (x : ChatRec) (h : List ChatRec) (m : ChatRec),
      (x :: h).length = n → pushHistory n (x :: h) m = h ++ [m]) ∧
    (∀ (n : Nat) (h : List ChatRec) (m : ChatRec), h.length = n →
      (pushHistory n h m).length = n) ∧
    (∀ (n : Nat) (msgs : List ChatRec) (h : List ChatRec), h.length ≤ n →
      (msgs.foldl (pushHistory n) h).length ≤ n) := by
  refine ⟨rfl, ?_, ?_, ?_, ?_⟩
  · intro n h m hlt
    unfold pushHistory
    simp only [List.length_append, List.length_cons, List.length_nil]
    split
    · omega
    · rfl
  · intro n x h m hlen
    unfold pushHistory
    simp only [List.length_append, List.length_cons, List.length_nil]
    split
    · simp
    · simp only [List.length_cons] at hlen
      omega
  · intro n h m hlen
    unfold pushHistory
    simp only [List.length_append, List.length_cons, List.length_nil]
    split
    · simp only [List.length_tail, List.length_append, List.length_cons, List.length_nil]
      omega
    · omega
  · intro n msgs
    induction msgs with
    | nil => intro h hle; simpa using hle
    | cons m rest ih =>
        intro h hle
        simpa using ih (pushHistory n h m) (pushHistory_le n h m hle)

/-- C3 witness: the FIFO behaviour at capacity 2, on concrete records. -/
theorem c3_history_bound_witness :
    pushHistory 2
        [{ kind := "chat", id := "a", sender := "u", text := "1",
           inReplyTo := none, timestamp := 0 },
         { kind := "chat", id := "b", sender := "u", text := "2",
           inReplyTo := none, timestamp := 1 }]
        { kind := "chat", id := "c", sender := "u", text := "3",
          inReplyTo := none, timestamp := 2 } =
      [{ kind := "chat", id := "b", sender := "u", text := "2",
         inReplyTo := none, timestamp := 1 },
       { kind := "chat", id := "c", sender := "u", text := "3",
         inReplyTo := none, timestamp := 2 }] :=
  c3_history_bound.2.2.1 2
    { kind := "chat", id := "a", sender := "u", text := "1",
      inReplyTo := none, timestamp := 0 }
    [{ kind := "chat", id := "b", sender := "u", text := "2",
       inReplyTo := none, timestamp := 1 }]
    { kind := "chat", id := "c", sender := "u", text := "3",
      inReplyTo := none, timestamp := 2 }
    (by decide)

/-! ### Shared helper lemmas about the map and list operations -/

theorem mapGet_none_iff (k : String) : ∀ (l : List (String × α)),
    mapGet k l = none ↔ l.any (fun p => p.1 == k) = false
  | [] => by simp [mapGet]
  | p :: rest => by
      cases h : (p.1 == k) <;>
        simp [mapGet, h, mapGet_none_iff k rest]

theorem mapSet_fresh (k : String) (v : α) (l : List (String × α))
    (h : mapGet k l = none) : mapSet k v l = l ++ [(k, v)] := by
  unfold mapSet
  rw [(mapGet_none_iff k l).mp h]
  simp

theorem mapGet_append_fresh (k : String) (v : α) : ∀ (l : List (String × α)),
    mapGet k l = none → mapGet k (l ++ [(k, v)]) = some v
  | [], _ => by simp [mapGet]
  | p :: rest, h => by
      rw [List.cons_append]
      unfold mapGet at h ⊢
      cases hk : (p.1 == k) with
      | true => simp [hk] at h
      | false =>
          simp only [hk, Bool.false_eq_true, if_false] at h ⊢
          exact mapGet_append_fresh k v rest h

theorem mapGet_map_replace (k : String) (v : α) : ∀ (l : List (String × α)),
    l.any (fun p => p.1 == k) = true →
    mapGet k (l.map (fun p => if p.1 == k then (k, v) else p)) = some v
  | [], hany => by simp at hany
  | p :: rest, hany => by
      cases hk : (p.1 == k) with
      | true =>
          rw [List.map_cons, if_pos hk]
          unfold mapGet
          rw [if_pos (by simp)]
      | false =>
          have hrest : rest.any (fun q => q.1 == k) = true := by
            rw [List.any_cons, hk, Bool.false_or] at hany
            exact hany
          rw [List.map_cons, if_neg (by simp [hk])]
          unfold mapGet
          rw [if_neg (by simp [hk])]
          exact mapGet_map_replace k v rest hrest

theorem mapGet_mapSet (k : String) (v : α) (l : List (String × α)) :
    mapGet k (mapSet k v l) = some v := by
  unfold mapSet
  cases hany : l.any (fun p => p.1 == k) with
  | false =>
      rw [if_neg (by simp)]
      exact mapGet_append_fresh k v l ((mapGet_none_iff k l).mpr hany)
  | true =>
      rw [if_pos rfl]
      exact mapGet_map_replace k v l hany

theorem contains_iff_mem (u : String) (l : List String) :
    l.contains u = true ↔ u ∈ l := List.elem_iff

theorem findIndex_isSome_iff (p : Note → Bool) : ∀ (l : List Note),
    (findIndex p l).isSome = true ↔ ∃ n ∈ l, p n = true
  | [] => by simp [findIndex]
  | n :: rest => by
      cases h : p n <;>
        simp [findIndex, h, findIndex_isSome_iff p rest]

theorem findIndex_some (p : Note → Bool) : ∀ (l : List Note) (i : Nat),
    findIndex p l = some i → ∃ n, l.get? i = some n ∧ p n = true
  | [], i, h => by simp [findIndex] at h
  | n :: rest, i, h => by
      cases hp : p n with
      | true =>
          rw [findIndex, if_pos hp] at h
          injection h with h2
          subst h2
          exact ⟨n, rfl, hp⟩
      | false =>
          rw [findIndex, if_neg (by simp [hp])] at h
          cases hrec : findIndex p rest with
          | none => rw [hrec] at h; simp at h
          | some j =>
              rw [hrec] at h
              simp at h
              obtain ⟨m, hm, hpm⟩ := findIndex_some p rest j hrec
              refine ⟨m, ?_, hpm⟩
              rw [← h]
              simpa using hm

/-! ### C6: upstream failure semantics -/

/-- C6: when the completion endpoint returns a non-success status or is
unreachable, `processAIRequest` leaves the whole server state unchanged and
performs exactly: the typing broadcast, one upstream call (no retry), and a
room-wide broadcast of a generic error event carrying the failure message — no
history append, no `ai_response`, and (being a total function here) no process
termination. -/
theorem c6_upstream_failure (cfg : Config) (st : ServerState) (fromUser text : String)
    (replyTo : Option String) (freshId : String) (now : Nat) (status : Nat)
    (body emsg : String) :
    processAIRequest cfg st fromUser text replyTo (.httpError status body) freshId now =
      (st, [.broadcast (.typing cfg.aiUserId) none, .callUpstream,
        .broadcast (.errorText ("Failed to get AI response: " ++
          ("OpenClaw API error " ++ toString status ++ ": " ++ body))) none]) ∧
    processAIRequest cfg st fromUser text replyTo (.unreachable emsg) freshId now =
      (st, [.broadcast (.typing cfg.aiUserId) none, .callUpstream,
        .broadcast (.errorText ("Failed to get AI response: " ++ emsg)) none]) :=
  ⟨rfl, rfl⟩

/-! ### C1: where successful AI responses are recorded -/

theorem recordMeetingChat_mem (userId text : String)
    (ms : List (String × MeetingState)) (mid : String) (m : MeetingState)
    (hmem : (mid, m) ∈ ms) :
    ∃ m2, (mid, m2) ∈ recordMeetingChat userId text ms ∧
      m2.participants = m.participants ∧
      m2.transcript = (if m.participants.contains userId then
        m.transcript ++ [userId ++ ": " ++ text] else m.transcript) := by
  have h3 : (if m.participants.contains userId then
      (mid, { m with transcript := m.transcript ++ [userId ++ ": " ++ text] })
      else (mid, m)) ∈ ms.map (fun p : String × MeetingState =>
        if p.2.participants.contains userId then
          (p.1, { p.2 with transcript := p.2.transcript ++ [userId ++ ": " ++ text] })
        else p) := List.mem_map_of_mem _ hmem
  by_cases hc : m.participants.contains userId = true
  · rw [if_pos hc] at h3
    exact ⟨{ m with transcript := m.transcript ++ [userId ++ ": " ++ text] },
      h3, rfl, by rw [if_pos hc]⟩
  · rw [if_neg hc] at h3
    exact ⟨m, h3, rfl, by rw [if_neg hc]⟩

/-- C1 (amended): on an AI request that completes successfully, the response
text is appended as a transcript line (`<aiUserId>: <text>`) to exactly those
ACTIVE meetings in which the CONFIGURED AI USER ID is currently a participant
— not the meetings of the invoking human. -/
theorem c1_ai_recording_amended (cfg : Config) (st : ServerState)
    (fromUser text : String) (replyTo : Option String) (content : Option String)
    (freshId : String) (now : Nat) (mid : String) (m : MeetingState)
    (hmem : (mid, m) ∈ st.activeMeetings) :
    ∃ m2, (mid, m2) ∈
        (processAIRequest cfg st fromUser text replyTo (.ok content)
          freshId now).1.activeMeetings ∧
      m2.participants = m.participants ∧
      m2.transcript = (if m.participants.contains cfg.aiUserId then
        m.transcript ++ [cfg.aiUserId ++ ": " ++ extractContent content]
        else m.transcript) := by
  exact recordMeetingChat_mem cfg.aiUserId (extractContent content)
    st.activeMeetings mid m hmem

/-- Concrete session fixture: the human user `alice` on connection `c1`. -/
def cxClient : Client :=
  { userId := "alice", userType := "human", location := none, status := "online",
    joinedAt := 0, lastSeen := 0 }

/-- Concrete meeting fixture: an active meeting whose sole participant is
`alice` (the configured AI id `pauline` is not a participant). -/
def m0 : MeetingState :=
  { id := "m1", lat := some 1, lng := some 2, locationName := "HQ",
    startedBy := "alice", startedAt := "day0", participants := ["alice"],
    transcript := ["--- Meeting Started ---"] }

/-- Concrete state fixture: `alice` registered, one active meeting `m1`. -/
def st0 : ServerState :=
  { clients := [("c1", cxClient)], chatHistory := [], notes := [],
    activeMeetings := [("m1", m0)] }

/-- C1 witness: applying the amended theorem to the concrete state `st0`. -/
theorem c1_ai_recording_amended_witness :
    ∃ m2, ("m1", m2) ∈
        (processAIRequest defaultCfg st0 "alice" "hey @pauline" none
          (.ok (some "hello")) "r1" 9).1.activeMeetings ∧
      m2.participants = m0.participants ∧
      m2.transcript = (if m0.participants.contains defaultCfg.aiUserId then
        m0.transcript ++ [defaultCfg.aiUserId ++ ": " ++ extractContent (some "hello")]
        else m0.transcript) :=
  c1_ai_recording_amended defaultCfg st0 "alice" "hey @pauline" none (some "hello")
    "r1" 9 "m1" m0 (by decide)

/-- C1 counterexample: with `alice` a participant of meeting `m1` and the AI
id not a participant, a successful AI request (response text "hello") leaves
`m1`'s transcript entirely unchanged — the response is NOT recorded into the
invoking human's meeting, contradicting the claim as stated. -/
theorem c1_counterexample :
    "alice" ∈ m0.participants ∧
    (processAIRequest defaultCfg st0 "alice" "hey @pauline" none
      (.ok (some "hello")) "r1" 9).1.activeMeetings = [("m1", m0)] ∧
    ¬ ("pauline: hello" ∈ m0.transcript) := by decide

/-! ### C2: meeting-start validation and effects -/

/-- C2 (amended): `startMeeting` succeeds exactly when `lat` and `lng` are
both present AND non-zero (JS truthiness of `!msg.lat || !msg.lng`), in which
case exactly one new ACTIVE meeting is appended whose participant set is
exactly the initiator, nothing else in the state changes, and a
`meeting_started` summary is broadcast to the room; otherwise (absent OR zero
coordinate) it sends the validation error only to the initiator and mutates no
state. -/
theorem c2_startMeeting_amended (cfg : Config) (st : ServerState) (client : Client)
    (m : MeetingMsg) (freshId : String) (d : DateInfo)
    (hfresh : mapGet freshId st.activeMeetings = none) :
    if jsTruthyNum m.lat && jsTruthyNum m.lng then
      ∃ mtg, (startMeeting cfg st client m freshId d).1.activeMeetings =
          st.activeMeetings ++ [(freshId, mtg)] ∧
        mtg.participants = [client.userId] ∧
        mtg.startedBy = client.userId ∧
        (startMeeting cfg st client m freshId d).1.clients = st.clients ∧
        (startMeeting cfg st client m freshId d).1.chatHistory = st.chatHistory ∧
        (startMeeting cfg st client m freshId d).1.notes = st.notes ∧
        (startMeeting cfg st client m freshId d).2 =
          [.broadcast (.meetingStarted freshId m.lat m.lng mtg.locationName
            client.userId [client.userId]) none]
    else startMeeting cfg st client m freshId d =
      (st, [.sendToUser client.userId
        (.errorText "Select a location on the map before starting a meeting.")]) := by
  have hpos : ∀ hb : (jsTruthyNum m.lat && jsTruthyNum m.lng) = true,
      startMeeting cfg st client m freshId d =
        ({ st with
            activeMeetings := mapSet freshId (newMeeting client m freshId d) st.activeMeetings },
          [.broadcast (.meetingStarted freshId m.lat m.lng
            (newMeeting client m freshId d).locationName client.userId
            [client.userId]) none]) := by
    intro hb
    unfold startMeeting
    rw [hb]
    rfl
  have hneg : ∀ hb : (jsTruthyNum m.lat && jsTruthyNum m.lng) = false,
      startMeeting cfg st client m freshId d =
        (st, [.sendToUser client.userId
          (.errorText "Select a location on the map before starting a meeting.")]) := by
    intro hb
    unfold startMeeting
    rw [hb]
    rfl
  cases hb : (jsTruthyNum m.lat && jsTruthyNum m.lng) with
  | false =>
      rw [if_neg (by simp)]
      exact hneg hb
  | true =>
      rw [if_pos rfl]
      refine ⟨newMeeting client m freshId d, ?_, rfl, rfl, ?_, ?_, ?_, ?_⟩
      · rw [hpos hb]
        exact mapSet_fresh _ _ _ hfresh
      · rw [hpos hb]
      · rw [hpos hb]
      · rw [hpos hb]
      · rw [hpos hb]

/-- Date/time fixture for concrete meeting transitions. -/
def dinfo0 : DateInfo :=
  { dateStr := "Monday, 1 January 2026", timeStr := "10:00",
    startedAtIso := "2026-01-01T10:00:00.000Z", fileName := "meeting_2026-01-01_1000.txt" }

/-- C2 witness: applying the amended theorem at a concrete non-zero
coordinate pair. -/
theorem c2_startMeeting_amended_witness :
    if jsTruthyNum (some (52 : ℚ)) && jsTruthyNum (some (-1 : ℚ)) then
      ∃ mtg, (startMeeting defaultCfg st0 cxClient
          { action := "start", lat := some 52, lng := some (-1) } "mid9" dinfo0).1.activeMeetings =
          st0.activeMeetings ++ [("mid9", mtg)] ∧
        mtg.participants = [cxClient.userId] ∧
        mtg.startedBy = cxClient.userId ∧
        (startMeeting defaultCfg st0 cxClient
          { action := "start", lat := some 52, lng := some (-1) } "mid9" dinfo0).1.clients = st0.clients ∧
        (startMeeting defaultCfg st0 cxClient
          { action := "start", lat := some 52, lng := some (-1) } "mid9" dinfo0).1.chatHistory = st0.chatHistory ∧
        (startMeeting defaultCfg st0 cxClient
          { action := "start", lat := some 52, lng := some (-1) } "mid9" dinfo0).1.notes = st0.notes ∧
        (startMeeting defaultCfg st0 cxClient
          { action := "start", lat := some 52, lng := some (-1) } "mid9" dinfo0).2 =
          [.broadcast (.meetingStarted "mid9" (some 52) (some (-1)) mtg.locationName
            cxClient.userId [cxClient.userId]) none]
    else startMeeting defaultCfg st0 cxClient
        { action := "start", lat := some 52, lng := some (-1) } "mid9" dinfo0 =
      (st0, [.sendToUser cxClient.userId
        (.errorText "Select a location on the map before starting a meeting.")]) :=
  c2_startMeeting_amended defaultCfg st0 cxClient
    { action := "start", lat := some 52, lng := some (-1) } "mid9" dinfo0 (by decide)

/-- C2 counterexample: a start request with BOTH coordinate fields present but
`lat = 0` is rejected with the validation error (sent only to the initiator)
and creates no meeting — contradicting "fails exactly when lat or lng is
absent". -/
theorem c2_counterexample :
    (some (0 : ℚ)) ≠ (none : Option ℚ) ∧
    (some (1 : ℚ)) ≠ (none : Option ℚ) ∧
    startMeeting defaultCfg st0 cxClient
      { action := "start", lat := some 0, lng := some 1 } "mid9" dinfo0 =
      (st0, [.sendToUser "alice"
        (.errorText "Select a location on the map before starting a meeting.")]) := by
  refine ⟨by simp, by simp, ?_⟩
  rfl

/-! ### C5: joinMeeting resolution and effects -/

/-- C5: `joinMeeting` resolves the supplied id by exact match against the
active-meetings map first, falling back to the first active meeting whose id
has the supplied string as a prefix; with no match it sends a not-found error
to the requester only and changes no state; if the requester is already a
participant it sends an already-member error to the requester only and changes
no state; otherwise it adds the user to the participant set, appends the join
line (plus the blank separator line) to the transcript, and broadcasts
`meeting_joined` with the updated participant list. -/
theorem c5_joinMeeting_spec (st : ServerState) (client : Client) (mid : String) :
    (∀ m, mapGet mid st.activeMeetings = some m →
      resolveMeeting st.activeMeetings mid = some (mid, m)) ∧
    (mapGet mid st.activeMeetings = none →
      resolveMeeting st.activeMeetings mid =
        st.activeMeetings.find? (fun p => strStartsWith p.1 mid)) ∧
    (resolveMeeting st.activeMeetings mid = none →
      joinMeeting st client mid =
        (st, [.sendToUser client.userId (.errorText "Meeting not found.")])) ∧
    (∀ rid m, resolveMeeting st.activeMeetings mid = some (rid, m) →
      client.userId ∈ m.participants →
      joinMeeting st client mid =
        (st, [.sendToUser client.userId
          (.errorText "You are already in this meeting.")])) ∧
    (∀ rid m, resolveMeeting st.activeMeetings mid = some (rid, m) →
      client.userId ∉ m.participants →
      ∃ m2, mapGet rid (joinMeeting st client mid).1.activeMeetings = some m2 ∧
        m2.participants = m.participants ++ [client.userId] ∧
        m2.transcript = m.transcript ++
          ["[" ++ client.userId ++ " joined the meeting]", ""] ∧
        (joinMeeting st client mid).1.clients = st.clients ∧
        (joinMeeting st client mid).1.notes = st.notes ∧
        (joinMeeting st client mid).1.chatHistory = st.chatHistory ∧
        (joinMeeting st client mid).2 =
          [.broadcast (.meetingJoined rid client.userId
            (m.participants ++ [client.userId])) none]) := by
  refine ⟨?_, ?_, ?_, ?_, ?_⟩
  · intro m hm
    unfold resolveMeeting
    rw [hm]
  · intro hm
    unfold resolveMeeting
    rw [hm]
  · intro hres
    unfold joinMeeting
    rw [hres]
  · intro rid m hres hmem
    have he : joinMeeting st client mid = joinResolved st client rid m := by
      unfold joinMeeting
      rw [hres]
    rw [he]
    unfold joinResolved
    rw [if_pos ((contains_iff_mem _ _).mpr hmem)]
  · intro rid m hres hmem
    have he : joinMeeting st client mid = joinResolved st client rid m := by
      unfold joinMeeting
      rw [hres]
    rw [he]
    unfold joinResolved
    rw [if_neg (fun hcon => hmem ((contains_iff_mem _ _).mp hcon))]
    exact ⟨_, mapGet_mapSet _ _ _, rfl, rfl, rfl, rfl, rfl, rfl⟩

/-- Concrete meeting fixture: `bob`'s meeting with the 6-character-prefixed id
`abc123`. -/
def mtg1 : MeetingState :=
  { id := "abc123", lat := some 3, lng := some 4, locationName := "Park",
    startedBy := "bob", startedAt := "day0", participants := ["bob"],
    transcript := [] }

/-- Concrete state fixture for join: `alice` registered, `bob`'s meeting
active. -/
def st1 : ServerState :=
  { clients := [("c1", cxClient)], chatHistory := [], notes := [],
    activeMeetings := [("abc123", mtg1)] }

/-- C5 witness: joining via the short prefix "abc" resolves to `abc123` and
adds `alice`, by the theorem applied at the concrete state. -/
theorem c5_joinMeeting_spec_witness :
    ∃ m2, mapGet "abc123" (joinMeeting st1 cxClient "abc").1.activeMeetings = some m2 ∧
      m2.participants = mtg1.participants ++ [cxClient.userId] ∧
      m2.transcript = mtg1.transcript ++
        ["[" ++ cxClient.userId ++ " joined the meeting]", ""] ∧
      (joinMeeting st1 cxClient "abc").1.clients = st1.clients ∧
      (joinMeeting st1 cxClient "abc").1.notes = st1.notes ∧
      (joinMeeting st1 cxClient "abc").1.chatHistory = st1.chatHistory ∧
      (joinMeeting st1 cxClient "abc").2 =
        [.broadcast (.meetingJoined "abc123" cxClient.userId
          (mtg1.participants ++ [cxClient.userId])) none] :=
  (c5_joinMeeting_spec st1 cxClient "abc").2.2.2.2 "abc123" mtg1 (by decide) (by decide)

/-! ### C7: author-scoped note deletion -/

theorem handleNote_delete_eq (cfg : Config) (st : ServerState) (clientId : String)
    (client : Client) (nid freshId : String) (now : Nat)
    (hc : mapGet clientId st.clients = some client) (hnid : nid ≠ "") :
    handleNote cfg st clientId { action := "delete", noteId := some nid } freshId now =
      (match findIndex (fun n => n.id == nid && n.author == client.userId) st.notes with
       | none => (st, [])
       | some i =>
           ({ st with notes := st.notes.eraseIdx i },
            [.saveNotes (st.notes.eraseIdx i), .broadcast (.noteDeleted nid) none])) := by
  have h1 : handleNote cfg st clientId
      { action := "delete", noteId := some nid } freshId now =
      deleteNote st client (some nid) := by
    unfold handleNote
    rw [hc]
    rfl
  rw [h1]
  unfold deleteNote
  simp only [jsOrNull]
  rw [if_neg hnid]

/-- C7: note deletion succeeds exactly when a stored note with the requested
id exists whose author equals the requesting user id; then that note (the
first such) is removed, the shrunken list persisted, and `note_deleted`
broadcast; for every other request (wrong author, unknown id) the state is
unchanged and nothing is sent — a silent no-op with no error. -/
theorem c7_note_delete_spec (cfg : Config) (st : ServerState) (clientId : String)
    (client : Client) (nid freshId : String) (now : Nat)
    (hc : mapGet clientId st.clients = some client) (hnid : nid ≠ "") :
    ((∃ n ∈ st.notes, n.id = nid ∧ n.author = client.userId) ↔
      (findIndex (fun n => n.id == nid && n.author == client.userId) st.notes).isSome
        = true) ∧
    (∀ i, findIndex (fun n => n.id == nid && n.author == client.userId) st.notes
        = some i →
      (∃ n, st.notes.get? i = some n ∧ n.id = nid ∧ n.author = client.userId) ∧
      handleNote cfg st clientId { action := "delete", noteId := some nid } freshId now =
        ({ st with notes := st.notes.eraseIdx i },
         [.saveNotes (st.notes.eraseIdx i), .broadcast (.noteDeleted nid) none])) ∧
    (findIndex (fun n => n.id == nid && n.author == client.userId) st.notes = none →
      handleNote cfg st clientId { action := "delete", noteId := some nid } freshId now =
        (st, [])) := by
  refine ⟨?_, ?_, ?_⟩
  · rw [findIndex_isSome_iff]
    simp only [Bool.and_eq_true, beq_iff_eq]
  · intro i hi
    constructor
    · obtain ⟨n, hget, hp⟩ := findIndex_some _ _ _ hi
      rw [Bool.and_eq_true, beq_iff_eq, beq_iff_eq] at hp
      exact ⟨n, hget, hp⟩
    · rw [handleNote_delete_eq cfg st clientId client nid freshId now hc hnid, hi]
  · intro hi
    rw [handleNote_delete_eq cfg st clientId client nid freshId now hc hnid, hi]

/-- Concrete note fixture: a note authored by `bob`. -/
def noteB : Note :=
  { id := "n1", lat := some 1, lng := some 2, locationName := none,
    text := "hello", author := "bob", timestamp := 0, meetingFile := none }

/-- Concrete state fixture for deletion: `alice` registered, one note
authored by `bob`. -/
def st2 : ServerState :=
  { clients := [("c1", cxClient)], chatHistory := [], notes := [noteB],
    activeMeetings := [] }

/-- C7 witness: `alice` requesting deletion of `bob`'s note is a silent no-op,
by the theorem applied at the concrete state. -/
theorem c7_note_delete_spec_witness :
    handleNote defaultCfg st2 "c1" { action := "delete", noteId := some "n1" } "f1" 7 =
      (st2, []) :=
  (c7_note_delete_spec defaultCfg st2 "c1" cxClient "n1" "f1" 7 (by decide)
    (by decide)).2.2 (by decide)

/-! ### C8: disconnect semantics -/

theorem leaveAllMeetings_keys (u : String) : ∀ (ms : List (String × MeetingState)),
    (leaveAllMeetings u ms).map Prod.fst = ms.map Prod.fst
  | [] => rfl
  | p :: rest => by
      unfold leaveAllMeetings
      rw [List.map_cons, List.map_cons, List.map_cons]
      have hrest := leaveAllMeetings_keys u rest
      unfold leaveAllMeetings at hrest
      rw [hrest]
      congr 1
      by_cases hc : p.2.participants.contains u = true
      · rw [if_pos hc]
      · rw [if_neg hc]

theorem leaveAllMeetings_mem (u : String) (ms : List (String × MeetingState))
    (mid : String) (m : MeetingState) (hmem : (mid, m) ∈ ms) :
    ∃ m2, (mid, m2) ∈ leaveAllMeetings u ms ∧
      (u ∈ m.participants →
        m2.participants = m.participants.filter (fun x => x != u) ∧
        m2.transcript = m.transcript ++ ["[" ++ u ++ " disconnected]"]) ∧
      (u ∉ m.participants → m2 = m) := by
  have h3 : (if m.participants.contains u then
      (mid, { m with
        participants := m.participants.filter (fun x => x != u),
        transcript := m.transcript ++ ["[" ++ u ++ " disconnected]"] })
      else (mid, m)) ∈ ms.map (fun p : String × MeetingState =>
        if p.2.participants.contains u then
          (p.1, { p.2 with
            participants := p.2.participants.filter (fun x => x != u),
            transcript := p.2.transcript ++ ["[" ++ u ++ " disconnected]"] })
        else p) := List.mem_map_of_mem _ hmem
  by_cases hc : m.participants.contains u = true
  · rw [if_pos hc] at h3
    exact ⟨_, h3, fun _ => ⟨rfl, rfl⟩,
      fun hn => absurd ((contains_iff_mem _ _).mp hc) hn⟩
  · rw [if_neg hc] at h3
    exact ⟨m, h3, fun hmem2 => absurd ((contains_iff_mem _ _).mpr hmem2) hc,
      fun _ => rfl⟩

/-- C8: when a registered session's transport closes, its user is removed from
the participant set of every ACTIVE meeting they belonged to, with exactly one
"disconnected" transcript line appended per such meeting; meetings the user was
not in are untouched, and no meeting is removed from the active set (the key
list is preserved), even when the removal empties a participant set. -/
theorem c8_disconnect_spec (cfg : Config) (st : ServerState) (clientId : String)
    (now : Nat) (client : Client)
    (hc : mapGet clientId st.clients = some client) :
    ((handleClose cfg st clientId now).1.activeMeetings.map Prod.fst =
      st.activeMeetings.map Prod.fst) ∧
    (∀ mid m, (mid, m) ∈ st.activeMeetings →
      ∃ m2, (mid, m2) ∈ (handleClose cfg st clientId now).1.activeMeetings ∧
        (client.userId ∈ m.participants →
          m2.participants = m.participants.filter (fun x => x != client.userId) ∧
          client.userId ∉ m2.participants ∧
          m2.transcript = m.transcript ++
            ["[" ++ client.userId ++ " disconnected]"]) ∧
        (client.userId ∉ m.participants → m2 = m)) := by
  have he : (handleClose cfg st clientId now).1.activeMeetings =
      leaveAllMeetings client.userId st.activeMeetings := by
    unfold handleClose
    rw [hc]
  rw [he]
  refine ⟨leaveAllMeetings_keys _ _, ?_⟩
  intro mid m hmem
  obtain ⟨m2, h1, h2, h3⟩ := leaveAllMeetings_mem client.userId st.activeMeetings mid m hmem
  refine ⟨m2, h1, fun hm => ?_, h3⟩
  obtain ⟨hp, ht⟩ := h2 hm
  refine ⟨hp, ?_, ht⟩
  rw [hp]
  simp [List.mem_filter]

/-- C8 witness: closing `alice`'s connection in the concrete state `st0`
removes her from meeting `m1` and appends one disconnected line, by the
theorem applied at that state. -/
theorem c8_disconnect_spec_witness :
    ∃ m2, ("m1", m2) ∈ (handleClose defaultCfg st0 "c1" 3).1.activeMeetings ∧
      (cxClient.userId ∈ m0.participants →
        m2.participants = m0.participants.filter (fun x => x != cxClient.userId) ∧
        cxClient.userId ∉ m2.participants ∧
        m2.transcript = m0.transcript ++
          ["[" ++ cxClient.userId ++ " disconnected]"]) ∧
      (cxClient.userId ∉ m0.participants → m2 = m0) :=
  (c8_disconnect_spec defaultCfg st0 "c1" 3 cxClient (by decide)).2 "m1" m0 (by decide)

/-! ### C9: the AI always appears in presence broadcasts -/

/-- C9: every presence broadcast's users list contains an entry for the
configured AI user id: when no connected session has claimed that id, the
synthetic entry (userType "ai", status "online", null location) is appended to
the per-session entries; when some session has claimed it, the list is exactly
the per-session entries with no synthetic entry added. -/
theorem c9_presence_ai (cfg : Config) (clients : List (String × Client)) (now : Nat) :
    (∃ e ∈ presenceUsers cfg clients now, e.userId = cfg.aiUserId) ∧
    ((∀ p ∈ clients, p.2.userId ≠ cfg.aiUserId) →
      presenceUsers cfg clients now =
        (clients.map fun p => presenceEntryOf p.2) ++ [syntheticAI cfg now]) ∧
    ((∃ p ∈ clients, p.2.userId = cfg.aiUserId) →
      presenceUsers cfg clients now = clients.map fun p => presenceEntryOf p.2) := by
  have hiff : (clients.map fun p => presenceEntryOf p.2).any
      (fun e => e.userId == cfg.aiUserId) = true ↔
      ∃ p ∈ clients, p.2.userId = cfg.aiUserId := by
    rw [List.any_eq_true]
    constructor
    · rintro ⟨e, he, hp⟩
      obtain ⟨q, hq, rfl⟩ := List.mem_map.mp he
      exact ⟨q, hq, by simpa [presenceEntryOf] using hp⟩
    · rintro ⟨q, hq, hid⟩
      exact ⟨presenceEntryOf q.2, List.mem_map_of_mem _ hq,
        by simp [presenceEntryOf, hid]⟩
  by_cases hcl : ∃ p ∈ clients, p.2.userId = cfg.aiUserId
  · have he : presenceUsers cfg clients now = clients.map fun p => presenceEntryOf p.2 := by
      unfold presenceUsers
      rw [if_pos (hiff.mpr hcl)]
    obtain ⟨p, hp, hid⟩ := hcl
    refine ⟨⟨presenceEntryOf p.2, ?_, hid⟩, ?_, fun _ => he⟩
    · rw [he]
      exact List.mem_map_of_mem _ hp
    · intro hall
      exact absurd hid (hall p hp)
  · have hany : (clients.map fun p => presenceEntryOf p.2).any
        (fun e => e.userId == cfg.aiUserId) = false := by
      cases h : (clients.map fun p => presenceEntryOf p.2).any
          (fun e => e.userId == cfg.aiUserId) with
      | true => exact absurd (hiff.mp h) hcl
      | false => rfl
    have he : presenceUsers cfg clients now =
        (clients.map fun p => presenceEntryOf p.2) ++ [syntheticAI cfg now] := by
      unfold presenceUsers
      rw [if_neg (by simp [hany])]
    refine ⟨⟨syntheticAI cfg now, ?_, rfl⟩, fun _ => he, fun hex => absurd hex hcl⟩
    rw [he]
    exact List.mem_append_right _ (by simp)

/-- C9 witness: with no connected sessions, the presence list is exactly the
synthetic AI entry, by the theorem applied at the empty registry. -/
theorem c9_presence_ai_witness :
    presenceUsers defaultCfg [] 5 =
      (List.map (fun p : String × Client => presenceEntryOf p.2)
        ([] : List (String × Client))) ++ [syntheticAI defaultCfg 5] :=
  (c9_presence_ai defaultCfg [] 5).2.1 (by simp)

/-! ### C10: unauthenticated messages are dropped -/

/-- C10: an inbound chat, invoke, note, meeting, move or drawing message on a
connection whose client id is not in the registry returns without modifying
any shared state and without sending any outbound message. -/
theorem c10_unauth_noop (cfg : Config) (env : Env) (st : ServerState)
    (clientId : String) (h : mapGet clientId st.clients = none) :
    ∀ msg : InMsg, step cfg env st clientId msg = (st, []) := by
  intro msg
  cases msg with
  | chat text => simp [step, handleChat, h]
  | invoke command msgId => simp [step, handleInvoke, h]
  | note m => simp [step, handleNote, h]
  | meeting m => simp [step, handleMeeting, h]
  | move loc => simp [step, handleMove, h]
  | drawing d => simp [step, handleDrawing, h]

/-- C10 witness: a chat message on an empty registry is a complete no-op, by
the theorem applied at the empty state. -/
theorem c10_unauth_noop_witness :
    step defaultCfg
      { now := 0, id1 := "a", id2 := "b", upstream := .ok none, dateInfo := dinfo0 }
      { clients := [], chatHistory := [], notes := [], activeMeetings := [] }
      "cX" (.chat "hello") =
      ({ clients := [], chatHistory := [], notes := [], activeMeetings := [] }, []) :=
  c10_unauth_noop defaultCfg
    { now := 0, id1 := "a", id2 := "b", upstream := .ok none, dateInfo := dinfo0 }
    { clients := [], chatHistory := [], notes := [], activeMeetings := [] }
    "cX" (by decide) (.chat "hello")

end FieldRoom
